import Mathlib

/-!
Shallow embedding of the Document-Style-Layout pipeline of the Titan engine
(`src/rust_engine/src/{core,css,html,layout}.rs`).  Machine floats (`f32`) are
modelled as exact rationals; `ElementId` (a random UUID in the source) is
modelled as a `Nat` drawn from a counter, which preserves the only property the
code relies on: freshness.  Rust `HashMap`s are modelled as association lists
with replace-on-insert semantics; iteration order of a `HashMap` is modelled as
the list order (the source itself documents the order as arbitrary).
-/

namespace Titan

/-- Association-list insert with the replace semantics of `HashMap::insert`. -/
def alistInsert {α : Type} [DecidableEq α] {β : Type} :
    List (α × β) → α → β → List (α × β)
  | [], k, v => [(k, v)]
  | (k', v') :: t, k, v =>
      if k' = k then (k, v) :: t else (k', v') :: alistInsert t k v

/-- Association-list lookup, the model of `HashMap::get`. -/
def alistLookup {α : Type} [DecidableEq α] {β : Type} :
    List (α × β) → α → Option β
  | [], _ => none
  | (k', v') :: t, k => if k' = k then some v' else alistLookup t k

/-! ## core.rs -/

/-- `core.rs` `Point` (f32 fields modelled as rationals). -/
structure Point where
  x : ℚ
  y : ℚ
  deriving DecidableEq, Repr

/-- `core.rs` `Size`. -/
structure Size where
  width : ℚ
  height : ℚ
  deriving DecidableEq, Repr

/-- `core.rs` `Rect`. -/
structure Rect where
  origin : Point
  size : Size
  deriving DecidableEq, Repr

/-- `Rect::new(x, y, width, height)`. -/
def Rect.new (x y width height : ℚ) : Rect :=
  { origin := ⟨x, y⟩, size := ⟨width, height⟩ }

/-- `Rect::contains_point` (core.rs lines 118-123): edge-inclusive containment. -/
def Rect.contains_point (r : Rect) (p : Point) : Bool :=
  decide (p.x ≥ r.origin.x) && decide (p.x ≤ r.origin.x + r.size.width) &&
  decide (p.y ≥ r.origin.y) && decide (p.y ≤ r.origin.y + r.size.height)

/-- `core.rs` `Color` with RGBA components. -/
structure Color where
  r : ℚ
  g : ℚ
  b : ℚ
  a : ℚ
  deriving DecidableEq, Repr

def Color.rgb (r g b : ℚ) : Color := ⟨r, g, b, 1⟩

def Color.transparent : Color := ⟨0, 0, 0, 0⟩

def Color.black : Color := Color.rgb 0 0 0

def Color.white : Color := Color.rgb 1 1 1

/-! ## Numeric and string helpers used by the css.rs parsers -/

/-- Model of Rust `str::find(pattern)`: index of the first occurrence of
`pat` in `s`, at the character level. -/
def findSub (pat : List Char) : List Char → Option Nat
  | [] => if pat.isPrefixOf ([] : List Char) then some 0 else none
  | c :: t =>
      if pat.isPrefixOf (c :: t) then some 0
      else (findSub pat t).map (· + 1)

/-- Numeric value of a decimal digit string (most significant first). -/
def digitsVal (s : List Char) : Nat :=
  s.foldl (fun a c => 10 * a + (c.toNat - 48)) 0

/-- Split a character list at the first character satisfying `p`, if any. -/
def splitAtFirst (p : Char → Bool) : List Char → List Char × Option (List Char)
  | [] => ([], none)
  | c :: t =>
      if p c then ([], some t)
      else
        let r := splitAtFirst p t
        (c :: r.1, r.2)

/-- Split a character list at the first dot, if any. -/
def splitAtDot (s : List Char) : List Char × Option (List Char) :=
  splitAtFirst (fun c => c = '.') s

/-- Model of `f32::from_str` restricted to the forms the engine feeds it:
optional sign, decimal digits with at most one dot (no exponent, no
inf or nan keywords); any other input is rejected. -/
def parseNum (s : List Char) : Option ℚ :=
  let signAndRest : ℚ × List Char :=
    match s with
    | '-' :: t => (-1, t)
    | '+' :: t => (1, t)
    | _ => (1, s)
  let ip := (splitAtDot signAndRest.2).1
  let fp := ((splitAtDot signAndRest.2).2).getD []
  if (ip ++ fp).all Char.isDigit ∧ (ip ++ fp) ≠ [] then
    some (signAndRest.1 * ((digitsVal ip : ℚ) + (digitsVal fp : ℚ) / (10 : ℚ) ^ fp.length))
  else none

/-- Model of Rust `u16::from_str` (digits only, range checked). -/
def parseU16 (s : List Char) : Option Nat :=
  if s ≠ [] ∧ s.all Char.isDigit ∧ digitsVal s < 65536 then some (digitsVal s)
  else none

/-- Split a character list at every separator recognised by `p`; empty pieces
are kept, as with Rust `str::split`. -/
def splitBy (p : Char → Bool) : List Char → List (List Char)
  | [] => [[]]
  | c :: t =>
      let r := splitBy p t
      if p c then [] :: r
      else (c :: r.headD []) :: r.tail

/-- Model of `str::split_whitespace`: split on whitespace, dropping empties. -/
def splitWs (s : String) : List String :=
  ((splitBy Char.isWhitespace s.data).map String.mk).filter (fun x => x ≠ "")

/-- ASCII-compatible model of `str::to_lowercase`. -/
def strToLower (s : String) : String :=
  String.mk (s.data.map Char.toLower)

/-- Model of `str::trim`. -/
def trimStr (s : String) : String :=
  String.mk
    (((s.data.dropWhile Char.isWhitespace).reverse.dropWhile Char.isWhitespace).reverse)

/-- Model of `str::eq_ignore_ascii_case`. -/
def eqIgnoreAsciiCase (a b : String) : Bool :=
  a.data.map Char.toLower == b.data.map Char.toLower

/-- Hexadecimal digit value. -/
def hexVal (c : Char) : Option Nat :=
  if c.isDigit then some (c.toNat - 48)
  else if 'a' ≤ c ∧ c ≤ 'f' then some (c.toNat - 87)
  else if 'A' ≤ c ∧ c ≤ 'F' then some (c.toNat - 55)
  else none

/-! ## css.rs data model -/

/-- `css.rs` `StylesheetOrigin` (lines 514-520). -/
inductive StylesheetOrigin where
  | userAgent
  | user
  | author
  deriving DecidableEq, Repr

/-- `css.rs` `Declaration`. -/
structure Declaration where
  property : String
  value : String
  important : Bool
  deriving DecidableEq, Repr

/-- `css.rs` `StyleRule`. -/
structure StyleRule where
  selectors : List String
  declarations : List Declaration
  deriving DecidableEq, Repr

/-- `css.rs` `CSSRule`.  Only the `StyleRule` variant is inspected by
`compute_style`; the payloads of the remaining variants are never read by the
code under study and are omitted. -/
inductive CSSRule where
  | styleRule (rule : StyleRule)
  | mediaRule
  | importRule
  | fontFaceRule
  | keyframesRule
  deriving DecidableEq, Repr

/-- `css.rs` `Stylesheet` (the `media_queries` field is always empty and never
read; it is omitted). -/
structure Stylesheet where
  rules : List CSSRule
  origin : StylesheetOrigin
  deriving DecidableEq, Repr

/-- `css.rs` `DisplayType`. -/
inductive DisplayType where
  | block
  | inline
  | inlineBlock
  | flex
  | grid
  | none
  deriving DecidableEq, Repr

/-- `css.rs` `PositionType`. -/
inductive PositionType where
  | static
  | relative
  | absolute
  | fixed
  | sticky
  deriving DecidableEq, Repr

/-- `css.rs` `BoxValues` (top, right, bottom, left). -/
structure BoxValues where
  top : ℚ
  right : ℚ
  bottom : ℚ
  left : ℚ
  deriving DecidableEq, Repr

/-- `BoxValues::new(top, right, bottom, left)`. -/
def BoxValues.new (top right bottom left : ℚ) : BoxValues :=
  ⟨top, right, bottom, left⟩

/-- `BoxValues::all(value)`. -/
def BoxValues.all (value : ℚ) : BoxValues := BoxValues.new value value value value

/-- `BoxValues::zero()`. -/
def BoxValues.zero : BoxValues := BoxValues.all 0

/-- `css.rs` `ComputedStyle` (font weight is a `u16` in the source, modelled
as `Nat`; the custom-property `HashMap` is an association list). -/
structure ComputedStyle where
  color : Color
  background_color : Color
  font_size : ℚ
  font_family : String
  font_weight : Nat
  display : DisplayType
  position : PositionType
  width : Option ℚ
  height : Option ℚ
  margin : BoxValues
  padding : BoxValues
  border_width : BoxValues
  custom_properties : List (String × String)
  deriving DecidableEq, Repr

/-- `impl Default for ComputedStyle` (css.rs lines 540-558). -/
def ComputedStyle.default : ComputedStyle :=
  { color := Color.black
    background_color := Color.transparent
    font_size := 16
    font_family := "serif"
    font_weight := 400
    display := DisplayType.block
    position := PositionType.static
    width := none
    height := none
    margin := BoxValues.zero
    padding := BoxValues.zero
    border_width := BoxValues.zero
    custom_properties := [] }

/-! ## css.rs value parsers (`impl CSSEngine`) -/

/-- Model of the external `cssparser` crate's `Color::parse` as used by
`CSSEngine::parse_color`, restricted to 6- and 3-digit hex syntax (the spec's
"standard function/hex syntax"); other inputs are rejected here and fall
through to the engine's own named-color table.  The only named color a claim
exercises, `red`, yields the same RGBA through either path. -/
def cssColorParse (value : String) : Option Color :=
  match value.data with
  | '#' :: [r1, r2, g1, g2, b1, b2] => do
      let rh ← hexVal r1
      let rl ← hexVal r2
      let gh ← hexVal g1
      let gl ← hexVal g2
      let bh ← hexVal b1
      let bl ← hexVal b2
      pure ⟨(16 * rh + rl : ℚ) / 255, (16 * gh + gl : ℚ) / 255,
            (16 * bh + bl : ℚ) / 255, 1⟩
  | '#' :: [r1, g1, b1] => do
      let rh ← hexVal r1
      let gh ← hexVal g1
      let bh ← hexVal b1
      pure ⟨(17 * rh : ℚ) / 255, (17 * gh : ℚ) / 255, (17 * bh : ℚ) / 255, 1⟩
  | _ => none

/-- `CSSEngine::parse_color` (css.rs lines 274-300): try the css color parser,
then the fixed named-color table, else `None`. -/
def parse_color (value : String) : Option Color :=
  match cssColorParse value with
  | some c => some c
  | none =>
      match strToLower value with
      | "red" => some (Color.rgb 1 0 0)
      | "green" => some (Color.rgb 0 1 0)
      | "blue" => some (Color.rgb 0 0 1)
      | "white" => some Color.white
      | "black" => some Color.black
      | "transparent" => some Color.transparent
      | _ => none

/-- `CSSEngine::parse_length` (css.rs lines 302-315).  Note the source tests
the `em` suffix before `rem`: any string containing `rem` also contains `em`,
so the `rem` arm below is unreachable, exactly as in the source. -/
def parse_length (value : String) : Option ℚ :=
  let s := value.data
  match findSub ['p', 'x'] s with
  | some i => parseNum (s.take i)
  | none =>
      match findSub ['e', 'm'] s with
      | some i => (parseNum (s.take i)).map (fun v => v * 16)
      | none =>
          match findSub ['r', 'e', 'm'] s with
          | some i => (parseNum (s.take i)).map (fun v => v * 16)
          | none =>
              match findSub ['%'] s with
              | some i => parseNum (s.take i)
              | none => parseNum s

/-- `CSSEngine::parse_font_weight` (css.rs lines 317-325). -/
def parse_font_weight (value : String) : Option Nat :=
  match value with
  | "normal" => some 400
  | "bold" => some 700
  | "lighter" => some 300
  | "bolder" => some 600
  | _ => parseU16 value.data

/-- `CSSEngine::parse_display` (css.rs lines 327-337). -/
def parse_display (value : String) : Option DisplayType :=
  match value with
  | "block" => some DisplayType.block
  | "inline" => some DisplayType.inline
  | "inline-block" => some DisplayType.inlineBlock
  | "flex" => some DisplayType.flex
  | "grid" => some DisplayType.grid
  | "none" => some DisplayType.none
  | _ => none

/-- `CSSEngine::parse_position` (css.rs lines 339-348). -/
def parse_position (value : String) : Option PositionType :=
  match value with
  | "static" => some PositionType.static
  | "relative" => some PositionType.relative
  | "absolute" => some PositionType.absolute
  | "fixed" => some PositionType.fixed
  | "sticky" => some PositionType.sticky
  | _ => none

/-- The 1/2/3/4-value shorthand expansion at the end of
`CSSEngine::parse_box_values` (css.rs lines 356-362). -/
def box_values_expand (values : List ℚ) : BoxValues :=
  match values with
  | [a] => BoxValues.all a
  | [a, b] => BoxValues.new a b a b
  | [a, b, c] => BoxValues.new a b c b
  | [a, b, c, d] => BoxValues.new a b c d
  | _ => BoxValues.zero

/-- `CSSEngine::parse_box_values` (css.rs lines 350-363): split on whitespace,
keep the values that parse as lengths, expand by count. -/
def parse_box_values (value : String) : BoxValues :=
  box_values_expand ((splitWs value).filterMap parse_length)

/-- `CSSEngine::apply_declaration` (css.rs lines 220-272): dispatch on the
property name; unparseable values fall back to the property's built-in
default; unknown properties go to the custom-property map. -/
def apply_declaration (cs : ComputedStyle) (d : Declaration) : ComputedStyle :=
  if d.property = "color" then
    { cs with color := (parse_color d.value).getD Color.black }
  else if d.property = "background-color" then
    { cs with background_color := (parse_color d.value).getD Color.transparent }
  else if d.property = "font-size" then
    { cs with font_size := (parse_length d.value).getD 16 }
  else if d.property = "font-family" then
    { cs with font_family := d.value }
  else if d.property = "font-weight" then
    { cs with font_weight := (parse_font_weight d.value).getD 400 }
  else if d.property = "display" then
    { cs with display := (parse_display d.value).getD DisplayType.block }
  else if d.property = "position" then
    { cs with position := (parse_position d.value).getD PositionType.static }
  else if d.property = "width" then
    { cs with width := parse_length d.value }
  else if d.property = "height" then
    { cs with height := parse_length d.value }
  else if d.property = "margin" then
    { cs with margin := parse_box_values d.value }
  else if d.property = "padding" then
    { cs with padding := parse_box_values d.value }
  else if d.property = "border-width" then
    { cs with border_width := parse_box_values d.value }
  else
    { cs with custom_properties :=
        alistInsert cs.custom_properties d.property d.value }

/-! ## html.rs data model -/

/-- `html.rs` `Element`.  `ElementId` (a random, never-reused UUID) is
modelled as a `Nat` issued by a counter; the attribute `HashMap` is an
association list. -/
structure Element where
  id : Nat
  tag_name : String
  attributes : List (String × String)
  children : List Nat
  parent : Option Nat
  text_content : String
  deriving DecidableEq, Repr

/-- `Element::new(tag_name, id)` (html.rs lines 205-214). -/
def Element.new (tag_name : String) (id : Nat) : Element :=
  { id := id
    tag_name := tag_name
    attributes := []
    children := []
    parent := none
    text_content := "" }

/-- `Element::get_attribute` (html.rs lines 217-219). -/
def Element.get_attribute (e : Element) (name : String) : Option String :=
  alistLookup e.attributes name

/-- `Element::matches_selector` (html.rs lines 254-276): a leading `#` matches
against the `id` attribute, a leading `.` against any class token, anything
else is an ASCII-case-insensitive tag-name comparison. -/
def Element.matches_selector (e : Element) (selector : String) : Bool :=
  match selector.data with
  | '#' :: rest => e.get_attribute "id" == some (String.mk rest)
  | '.' :: rest =>
      match e.get_attribute "class" with
      | some class_attr => (splitWs class_attr).any (fun c => c == String.mk rest)
      | none => false
  | _ => eqIgnoreAsciiCase e.tag_name selector

/-- `html.rs` `DocumentType`. -/
structure DocumentType where
  name : String
  public_id : String
  system_id : String
  deriving DecidableEq, Repr

/-- `html.rs` `Document` (head/body hold `Arc<Element>` clones in the source,
modelled as element values; the `elements` map is an association list from
id to element). -/
structure Document where
  url : String
  title : String
  head : Option Element
  body : Option Element
  doctype : Option DocumentType
  elements : List (Nat × Element)
  root : Element
  deriving DecidableEq, Repr

/-- `Document::new(url)` (html.rs lines 57-71): a fresh `html` root element,
already present in the elements map.  The id counter used to model
`ElementId::new()` starts at 0 here. -/
def Document.new (url : String) : Document :=
  let root := Element.new "html" 0
  { url := url
    title := ""
    head := none
    body := none
    doctype := none
    elements := [(0, root)]
    root := root }

-- Model of the `html5ever` `RcDom` node fed to `Document::traverse_node`:
-- one constructor per `NodeData` variant, with the fields the traversal
-- reads.  Children are a mutually defined forest so the traversal is
-- structurally recursive.
mutual

inductive DomNode where
  | document (children : DomForest)
  | doctype (name public_id system_id : String)
  | text (contents : String)
  | comment
  | element (tag : String) (attrs : List (String × String)) (children : DomForest)
  | processingInstruction

inductive DomForest where
  | nil
  | cons (head : DomNode) (tail : DomForest)

end

-- `Document::traverse_node` (html.rs lines 90-161), with the id counter for
-- `ElementId::new()` threaded through.  Faithful points: the `Text` arm
-- mutates nothing (its body is an empty `if let` chain); the
-- `html`/`head`/`body` arms overwrite the corresponding shortcut
-- unconditionally; the created element is inserted with empty `children` and
-- `parent = None`, and no arm ever adds the new id to the parent's child
-- list or sets the child's parent field.
mutual

def traverseNode (st : Document × Nat) (h : DomNode) (parent_id : Option Nat) :
    Document × Nat :=
  match h with
  | DomNode.document children => traverseForest st children Option.none
  | DomNode.doctype name public_id system_id =>
      ({ st.1 with doctype := some ⟨name, public_id, system_id⟩ }, st.2)
  | DomNode.text _ => st
  | DomNode.comment => st
  | DomNode.element tag attrs children =>
      let eid := st.2
      let el : Element :=
        { id := eid
          tag_name := tag
          attributes := attrs.foldl (fun m kv => alistInsert m kv.1 kv.2) []
          children := []
          parent := none
          text_content := "" }
      let d1 := st.1
      let d2 :=
        if tag = "html" then { d1 with root := el }
        else if tag = "head" then { d1 with head := some el }
        else if tag = "body" then { d1 with body := some el }
        else d1
      let d3 := { d2 with elements := alistInsert d2.elements eid el }
      traverseForest (d3, eid + 1) children (some eid)
  | DomNode.processingInstruction => st

/-- The `for child in &node.children { self.traverse_node(child, p)? }` loops
inside `traverse_node`. -/
def traverseForest (st : Document × Nat) (children : DomForest)
    (parent_id : Option Nat) : Document × Nat :=
  match children with
  | DomForest.nil => st
  | DomForest.cons c rest =>
      traverseForest (traverseNode st c parent_id) rest parent_id

end

/-- `Document::from_rcdom` (html.rs lines 74-88).  The trailing title
extraction calls `Element::find_child_by_tag`, which always returns `None`
(html.rs lines 247-251), so the title is never updated; the model reflects
that by leaving the title untouched. -/
def from_rcdom (dom : DomNode) : Document :=
  (traverseNode (Document.new "about:blank", 1) dom none).1

/-! ## css.rs `CSSEngine::compute_style` -/

/-- Model of `CSSEngine::parse_declaration_list` for inline `style`
attributes.  The tokenizer it delegates to lives in the external `cssparser`
crate; modelled as a best-effort split on semicolons and the first colon.
No claim exercises inline styles; the claims' theorems pin the `style`
attribute to absent. -/
def parse_declaration_list (css : String) : List Declaration :=
  (splitBy (fun c => c = ';') css.data).filterMap fun piece =>
    match splitAtFirst (fun c => c = ':') piece with
    | (p, some v) =>
        some { property := trimStr (String.mk p)
               value := trimStr (String.mk v)
               important := false }
    | (_, none) => none

/-- `CSSEngine::selector_matches` (css.rs lines 215-218). -/
def selector_matches (selector : String) (e : Element) : Bool :=
  e.matches_selector selector

/-- The per-rule body of the cascade loop in `CSSEngine::compute_style`
(css.rs lines 100-112): for each selector of a style rule that matches the
element, apply every declaration of the rule in declared order. -/
def applyRule (e : Element) (cs : ComputedStyle) (rule : CSSRule) : ComputedStyle :=
  match rule with
  | CSSRule.styleRule sr =>
      sr.selectors.foldl
        (fun acc sel =>
          if selector_matches sel e then
            sr.declarations.foldl apply_declaration acc
          else acc)
        cs
  | _ => cs

/-- `CSSEngine::compute_style` (css.rs lines 95-125): start from the built-in
defaults, iterate the supplied stylesheets in the order given, then apply the
element's inline `style` declarations last. -/
def compute_style (e : Element) (stylesheets : List Stylesheet) : ComputedStyle :=
  let cs :=
    stylesheets.foldl
      (fun acc sheet => sheet.rules.foldl (applyRule e) acc)
      ComputedStyle.default
  match e.get_attribute "style" with
  | some style_attr => (parse_declaration_list style_attr).foldl apply_declaration cs
  | none => cs

/-! ## layout.rs -/

/-- The four resolved per-side lengths of a `taffy::Rect<f32>` as read from a
computed Taffy layout (`layout.padding`, `layout.border`, `layout.margin`). -/
structure TaffySides where
  left : ℚ
  right : ℚ
  top : ℚ
  bottom : ℚ
  deriving DecidableEq, Repr

/-- The fields of a computed `taffy::Layout` that
`LayoutEngine::extract_layout_recursive` reads: location, size and the three
resolved offset quadruples.  Taffy itself is an external crate; its computed
layout is the input to the extraction code under study. -/
structure TaffyLayout where
  x : ℚ
  y : ℚ
  width : ℚ
  height : ℚ
  padding : TaffySides
  border : TaffySides
  margin : TaffySides
  deriving DecidableEq, Repr

/-- `layout.rs` `LayoutBox`. -/
structure LayoutBox where
  element_id : Nat
  content_rect : Rect
  padding_rect : Rect
  border_rect : Rect
  margin_rect : Rect
  baseline : ℚ
  deriving DecidableEq, Repr

/-- The `LayoutBox` construction inside `extract_layout_recursive`
(layout.rs lines 198-225): the content rectangle is the Taffy location/size,
and each outer rectangle grows symmetrically by the resolved padding, border
and margin offsets. -/
def extractLayoutBox (element_id : Nat) (l : TaffyLayout) : LayoutBox :=
  { element_id := element_id
    content_rect := Rect.new l.x l.y l.width l.height
    padding_rect := Rect.new
      (l.x - l.padding.left)
      (l.y - l.padding.top)
      (l.width + l.padding.left + l.padding.right)
      (l.height + l.padding.top + l.padding.bottom)
    border_rect := Rect.new
      (l.x - l.padding.left - l.border.left)
      (l.y - l.padding.top - l.border.top)
      (l.width + l.padding.left + l.padding.right + l.border.left + l.border.right)
      (l.height + l.padding.top + l.padding.bottom + l.border.top + l.border.bottom)
    margin_rect := Rect.new
      (l.x - l.padding.left - l.border.left - l.margin.left)
      (l.y - l.padding.top - l.border.top - l.margin.top)
      (l.width + l.padding.left + l.padding.right + l.border.left + l.border.right
        + l.margin.left + l.margin.right)
      (l.height + l.padding.top + l.padding.bottom + l.border.top + l.border.bottom
        + l.margin.top + l.margin.bottom)
    baseline := l.y + l.height }

-- The Taffy node tree walked by `extract_layout_recursive`: each node carries
-- the element id it is mapped to (`node_to_element`) and its computed layout;
-- children as a mutually defined forest keep the recursion structural.
mutual

inductive TaffyTree where
  | node (id : Nat) (layout : TaffyLayout) (children : TaffyForest)

inductive TaffyForest where
  | nil
  | cons (head : TaffyTree) (tail : TaffyForest)

end

-- `LayoutEngine::extract_layout_recursive` (layout.rs lines 186-239): visit
-- the node, record its extracted `LayoutBox` under its element id, then
-- recurse into the Taffy children.
mutual

def extractTree : TaffyTree → List (Nat × LayoutBox)
  | TaffyTree.node i l cs => (i, extractLayoutBox i l) :: extractForest cs

def extractForest : TaffyForest → List (Nat × LayoutBox)
  | TaffyForest.nil => []
  | TaffyForest.cons t ts => extractTree t ++ extractForest ts

end

/-- `layout.rs` `LayoutTree` (lines 351-355); the `layout_boxes` `HashMap` is
modelled as an association list whose order stands for the map's arbitrary
iteration order. -/
structure LayoutTree where
  root_element_id : Nat
  layout_boxes : List (Nat × LayoutBox)
  deriving DecidableEq, Repr

/-- `LayoutEngine::extract_layout_tree` (layout.rs lines 172-183). -/
def extract_layout_tree (root : TaffyTree) : LayoutTree :=
  { root_element_id := match root with | TaffyTree.node i _ _ => i
    layout_boxes := extractTree root }

/-- The shared loop of `LayoutEngine::hit_test` (layout.rs lines 332-347) and
`LayoutTree::element_at_point` (lines 369-377): return the first entry whose
border rectangle contains the point. -/
def firstContaining (boxes : List (Nat × LayoutBox)) (p : Point) : Option Nat :=
  match boxes with
  | [] => none
  | (i, b) :: rest =>
      if b.border_rect.contains_point p then some i else firstContaining rest p

/-- `LayoutTree::element_at_point` (layout.rs lines 369-377). -/
def LayoutTree.element_at_point (lt : LayoutTree) (p : Point) : Option Nat :=
  firstContaining lt.layout_boxes p

/-- `LayoutEngine::hit_test` (layout.rs lines 332-347), over the engine's
`layout_cache` map. -/
def hit_test (layout_cache : List (Nat × LayoutBox)) (p : Point) : Option Nat :=
  firstContaining layout_cache p

/-- Outer/inner rectangle containment, used to state the box-model nesting. -/
def Rect.containsRect (outer inner : Rect) : Prop :=
  outer.origin.x ≤ inner.origin.x ∧ outer.origin.y ≤ inner.origin.y ∧
  inner.origin.x + inner.size.width ≤ outer.origin.x + outer.size.width ∧
  inner.origin.y + inner.size.height ≤ outer.origin.y + outer.size.height

/-- Strict interior membership of a point in a rectangle. -/
def Rect.strictlyContains (r : Rect) (p : Point) : Prop :=
  r.origin.x < p.x ∧ p.x < r.origin.x + r.size.width ∧
  r.origin.y < p.y ∧ p.y < r.origin.y + r.size.height

/-- Non-negativity of all resolved offsets and of the content size of a
computed Taffy layout (the claims' "non-negative inputs"). -/
def LayoutNonneg (l : TaffyLayout) : Prop :=
  0 ≤ l.width ∧ 0 ≤ l.height ∧
  0 ≤ l.padding.left ∧ 0 ≤ l.padding.right ∧ 0 ≤ l.padding.top ∧ 0 ≤ l.padding.bottom ∧
  0 ≤ l.border.left ∧ 0 ≤ l.border.right ∧ 0 ≤ l.border.top ∧ 0 ≤ l.border.bottom ∧
  0 ≤ l.margin.left ∧ 0 ≤ l.margin.right ∧ 0 ≤ l.margin.top ∧ 0 ≤ l.margin.bottom

/-! ## Concrete fixtures used by witnesses and counterexamples -/

/-- A sample computed Taffy layout with non-negative offsets. -/
def sampleLayout : TaffyLayout :=
  { x := 0, y := 0, width := 10, height := 20
    padding := ⟨1, 1, 1, 1⟩, border := ⟨2, 2, 2, 2⟩, margin := ⟨3, 3, 3, 3⟩ }

/-- A one-node Taffy tree carrying `sampleLayout` under element id 5. -/
def sampleTree : TaffyTree := TaffyTree.node 5 sampleLayout TaffyForest.nil

/-- The box extracted from `sampleLayout`. -/
def sampleBox : LayoutBox := extractLayoutBox 5 sampleLayout

/-- A layout box whose four rectangles all equal the given rectangle. -/
def flatBox (id : Nat) (r : Rect) (baseline : ℚ) : LayoutBox :=
  { element_id := id, content_rect := r, padding_rect := r,
    border_rect := r, margin_rect := r, baseline := baseline }

/-! ## Helper lemmas -/

theorem alistInsert_alistInsert {α : Type} [DecidableEq α] {β : Type}
    (l : List (α × β)) (k : α) (v1 v2 : β) :
    alistInsert (alistInsert l k v1) k v2 = alistInsert l k v2 := by
  induction l with
  | nil => simp [alistInsert]
  | cons h t ih =>
      by_cases hk : h.1 = k
      · simp [alistInsert, hk]
      · simp [alistInsert, hk, ih]

/-- Applying two declarations for the same property is the same as applying
only the second: every recognised arm of `apply_declaration` overwrites its
field without reading it, and the custom-property map insert replaces. -/
theorem apply_decl_override (cs : ComputedStyle) (d1 d2 : Declaration)
    (hp : d1.property = d2.property) :
    apply_declaration (apply_declaration cs d1) d2 = apply_declaration cs d2 := by
  obtain ⟨p1, v1, i1⟩ := d1
  obtain ⟨p2, v2, i2⟩ := d2
  dsimp only at hp
  subst hp
  by_cases h1 : p1 = "color"
  · subst h1; simp +decide [apply_declaration]
  by_cases h2 : p1 = "background-color"
  · subst h2; simp +decide [apply_declaration]
  by_cases h3 : p1 = "font-size"
  · subst h3; simp +decide [apply_declaration]
  by_cases h4 : p1 = "font-family"
  · subst h4; simp +decide [apply_declaration]
  by_cases h5 : p1 = "font-weight"
  · subst h5; simp +decide [apply_declaration]
  by_cases h6 : p1 = "display"
  · subst h6; simp +decide [apply_declaration]
  by_cases h7 : p1 = "position"
  · subst h7; simp +decide [apply_declaration]
  by_cases h8 : p1 = "width"
  · subst h8; simp +decide [apply_declaration]
  by_cases h9 : p1 = "height"
  · subst h9; simp +decide [apply_declaration]
  by_cases h10 : p1 = "margin"
  · subst h10; simp +decide [apply_declaration]
  by_cases h11 : p1 = "padding"
  · subst h11; simp +decide [apply_declaration]
  by_cases h12 : p1 = "border-width"
  · subst h12; simp +decide [apply_declaration]
  simp [apply_declaration, h1, h2, h3, h4, h5, h6, h7, h8, h9, h10, h11, h12,
    alistInsert_alistInsert]

/-- If no entry of the list has a border rectangle containing the point, the
first-containing scan returns `none`. -/
theorem firstContaining_eq_none (boxes : List (Nat × LayoutBox)) (p : Point)
    (h : ∀ q ∈ boxes, q.2.border_rect.contains_point p = false) :
    firstContaining boxes p = none := by
  induction boxes with
  | nil => rfl
  | cons hd tl ih =>
      have h0 := h hd (List.mem_cons_self hd tl)
      obtain ⟨i, b⟩ := hd
      simp only [firstContaining]
      rw [h0]
      exact ih fun q hq => h q (List.mem_cons_of_mem _ hq)

/-- The first-containing scan returns the first entry whose border rectangle
contains the point. -/
theorem firstContaining_eq_some (pre post : List (Nat × LayoutBox)) (i : Nat)
    (b : LayoutBox) (p : Point)
    (hpre : ∀ q ∈ pre, q.2.border_rect.contains_point p = false)
    (hb : b.border_rect.contains_point p = true) :
    firstContaining (pre ++ (i, b) :: post) p = some i := by
  induction pre with
  | nil =>
      simp only [List.nil_append, firstContaining]
      rw [hb]
      rfl
  | cons hd tl ih =>
      have h0 := hpre hd (List.mem_cons_self hd tl)
      obtain ⟨j, c⟩ := hd
      simp only [List.cons_append, firstContaining]
      rw [h0]
      exact ih fun q hq => hpre q (List.mem_cons_of_mem _ hq)

-- Every entry produced by the box extraction is the image of some visited
-- Taffy node under `extractLayoutBox`.
mutual

theorem mem_extractTree : ∀ (t : TaffyTree) (q : Nat × LayoutBox),
    q ∈ extractTree t → ∃ i l, q = (i, extractLayoutBox i l)
  | TaffyTree.node i l cs, q, h => by
      simp only [extractTree, List.mem_cons] at h
      rcases h with h1 | h2
      · exact ⟨i, l, h1⟩
      · exact mem_extractForest cs q h2

theorem mem_extractForest : ∀ (ts : TaffyForest) (q : Nat × LayoutBox),
    q ∈ extractForest ts → ∃ i l, q = (i, extractLayoutBox i l)
  | TaffyForest.nil, q, h => by simp [extractForest] at h
  | TaffyForest.cons t ts, q, h => by
      simp only [extractForest, List.mem_append] at h
      rcases h with h1 | h2
      · exact mem_extractTree t q h1
      · exact mem_extractForest ts q h2

end

/-! ## Claim theorems -/

/-- C10: rectangle containment used by hit testing is edge-inclusive: for a
rectangle of non-negative size, `contains_point` returns `true` exactly when
the point is within the closed bounds on both axes, so edge and corner points
count as hits. -/
theorem contains_point_edge_inclusive (r : Rect) (p : Point)
    (h : 0 ≤ r.size.width ∧ 0 ≤ r.size.height) :
    r.contains_point p = true ↔
      (r.origin.x ≤ p.x ∧ p.x ≤ r.origin.x + r.size.width ∧
       r.origin.y ≤ p.y ∧ p.y ≤ r.origin.y + r.size.height) := by
  simp [Rect.contains_point, ge_iff_le, and_assoc]

/-- Witness for C10 at a point lying exactly on the right edge of the
rectangle. -/
theorem contains_point_edge_inclusive_w :
    (0 ≤ (Rect.new 0 0 2 2).size.width ∧ 0 ≤ (Rect.new 0 0 2 2).size.height) ∧
    ((Rect.new 0 0 2 2).contains_point ⟨2, 1⟩ = true ↔
      ((0 : ℚ) ≤ 2 ∧ (2 : ℚ) ≤ 0 + 2 ∧ (0 : ℚ) ≤ 1 ∧ (1 : ℚ) ≤ 0 + 2)) :=
  ⟨⟨by decide, by decide⟩,
   contains_point_edge_inclusive (Rect.new 0 0 2 2) ⟨2, 1⟩ ⟨by decide, by decide⟩⟩

/-- C8: length parsing yields `v` for `"vpx"`, `16 * v` for `"vem"`, `v` for
`"v%"` and for a unit-less literal — but `"1rem"` yields `none`, not `16`:
the source tests the `em` suffix before `rem`, finds `em` at offset 2 of
`"1rem"`, and fails to parse the prefix `"1r"` as a number, so its dedicated
`rem` arm is unreachable. -/
theorem parse_length_em_before_rem :
    parse_length "1px" = some 1 ∧ parse_length "2.5px" = some (5 / 2) ∧
    parse_length "1em" = some 16 ∧ parse_length "50%" = some 50 ∧
    parse_length "12" = some 12 ∧ parse_length "1rem" = none := by
  and_intros <;>
    simp +decide [parse_length, parseNum, splitAtDot, splitAtFirst, digitsVal,
      findSub] <;>
    norm_num

/-- C9: box-model shorthand expansion follows the standard 1/2/3/4-value
rule, any other count yields all-zero, and in particular
`padding: 10px 20px` expands to top 10, right 20, bottom 10, left 20. -/
theorem parse_box_values_shorthand :
    (∀ a : ℚ, box_values_expand [a] = BoxValues.new a a a a) ∧
    (∀ a b : ℚ, box_values_expand [a, b] = BoxValues.new a b a b) ∧
    (∀ a b c : ℚ, box_values_expand [a, b, c] = BoxValues.new a b c b) ∧
    (∀ a b c d : ℚ, box_values_expand [a, b, c, d] = BoxValues.new a b c d) ∧
    box_values_expand [] = BoxValues.zero ∧
    (∀ (a b c d e : ℚ) (rest : List ℚ),
      box_values_expand (a :: b :: c :: d :: e :: rest) = BoxValues.zero) ∧
    parse_box_values "10px 20px" = BoxValues.new 10 20 10 20 := by
  refine ⟨fun a => rfl, fun a b => rfl, fun a b c => rfl, fun a b c d => rfl,
    rfl, fun a b c d e rest => rfl, ?_⟩
  simp +decide [parse_box_values, splitWs, splitBy, box_values_expand,
    parse_length, parseNum, splitAtDot, splitAtFirst, digitsVal, findSub,
    BoxValues.new]

/-- C1: every entry of a computed layout extraction is the symmetric
expansion of some visited Taffy layout, and whenever that layout's resolved
offsets and content size are non-negative: the four rectangles nest
(margin ⊇ border ⊇ padding ⊇ content), the margin rectangle's width (height)
is the content width (height) plus the left and right (top and bottom)
padding, border and margin offsets, each step's growth on each side equals
the corresponding resolved offset, and all four rectangles have non-negative
width and height. -/
theorem box_model_invariant (t : TaffyTree) (q : Nat × LayoutBox)
    (hq : q ∈ extractTree t) :
    ∃ l : TaffyLayout, q.2 = extractLayoutBox q.1 l ∧
      (LayoutNonneg l →
        Rect.containsRect q.2.margin_rect q.2.border_rect ∧
        Rect.containsRect q.2.border_rect q.2.padding_rect ∧
        Rect.containsRect q.2.padding_rect q.2.content_rect ∧
        q.2.margin_rect.size.width
          = q.2.content_rect.size.width + l.padding.left + l.padding.right
            + l.border.left + l.border.right + l.margin.left + l.margin.right ∧
        q.2.margin_rect.size.height
          = q.2.content_rect.size.height + l.padding.top + l.padding.bottom
            + l.border.top + l.border.bottom + l.margin.top + l.margin.bottom ∧
        q.2.content_rect.origin.x - q.2.padding_rect.origin.x = l.padding.left ∧
        q.2.padding_rect.origin.x + q.2.padding_rect.size.width
          - (q.2.content_rect.origin.x + q.2.content_rect.size.width)
          = l.padding.right ∧
        q.2.content_rect.origin.y - q.2.padding_rect.origin.y = l.padding.top ∧
        q.2.padding_rect.origin.y + q.2.padding_rect.size.height
          - (q.2.content_rect.origin.y + q.2.content_rect.size.height)
          = l.padding.bottom ∧
        q.2.padding_rect.origin.x - q.2.border_rect.origin.x = l.border.left ∧
        q.2.border_rect.origin.x + q.2.border_rect.size.width
          - (q.2.padding_rect.origin.x + q.2.padding_rect.size.width)
          = l.border.right ∧
        q.2.padding_rect.origin.y - q.2.border_rect.origin.y = l.border.top ∧
        q.2.border_rect.origin.y + q.2.border_rect.size.height
          - (q.2.padding_rect.origin.y + q.2.padding_rect.size.height)
          = l.border.bottom ∧
        q.2.border_rect.origin.x - q.2.margin_rect.origin.x = l.margin.left ∧
        q.2.margin_rect.origin.x + q.2.margin_rect.size.width
          - (q.2.border_rect.origin.x + q.2.border_rect.size.width)
          = l.margin.right ∧
        q.2.border_rect.origin.y - q.2.margin_rect.origin.y = l.margin.top ∧
        q.2.margin_rect.origin.y + q.2.margin_rect.size.height
          - (q.2.border_rect.origin.y + q.2.border_rect.size.height)
          = l.margin.bottom ∧
        0 ≤ q.2.content_rect.size.width ∧ 0 ≤ q.2.content_rect.size.height ∧
        0 ≤ q.2.padding_rect.size.width ∧ 0 ≤ q.2.padding_rect.size.height ∧
        0 ≤ q.2.border_rect.size.width ∧ 0 ≤ q.2.border_rect.size.height ∧
        0 ≤ q.2.margin_rect.size.width ∧ 0 ≤ q.2.margin_rect.size.height) := by
  obtain ⟨i, l, rfl⟩ := mem_extractTree t q hq
  refine ⟨l, rfl, fun hn => ?_⟩
  obtain ⟨n1, n2, n3, n4, n5, n6, n7, n8, n9, n10, n11, n12, n13, n14⟩ := hn
  simp only [extractLayoutBox, Rect.new, Rect.containsRect]
  and_intros <;> dsimp only <;> linarith

/-- Witness for C1 on a one-node tree with non-negative offsets. -/
theorem box_model_invariant_w :
    ∃ l : TaffyLayout, sampleBox = extractLayoutBox 5 l ∧
      (LayoutNonneg l →
        Rect.containsRect sampleBox.margin_rect sampleBox.border_rect ∧
        Rect.containsRect sampleBox.border_rect sampleBox.padding_rect ∧
        Rect.containsRect sampleBox.padding_rect sampleBox.content_rect ∧
        sampleBox.margin_rect.size.width
          = sampleBox.content_rect.size.width + l.padding.left + l.padding.right
            + l.border.left + l.border.right + l.margin.left + l.margin.right ∧
        sampleBox.margin_rect.size.height
          = sampleBox.content_rect.size.height + l.padding.top + l.padding.bottom
            + l.border.top + l.border.bottom + l.margin.top + l.margin.bottom ∧
        sampleBox.content_rect.origin.x - sampleBox.padding_rect.origin.x
          = l.padding.left ∧
        sampleBox.padding_rect.origin.x + sampleBox.padding_rect.size.width
          - (sampleBox.content_rect.origin.x + sampleBox.content_rect.size.width)
          = l.padding.right ∧
        sampleBox.content_rect.origin.y - sampleBox.padding_rect.origin.y
          = l.padding.top ∧
        sampleBox.padding_rect.origin.y + sampleBox.padding_rect.size.height
          - (sampleBox.content_rect.origin.y + sampleBox.content_rect.size.height)
          = l.padding.bottom ∧
        sampleBox.padding_rect.origin.x - sampleBox.border_rect.origin.x
          = l.border.left ∧
        sampleBox.border_rect.origin.x + sampleBox.border_rect.size.width
          - (sampleBox.padding_rect.origin.x + sampleBox.padding_rect.size.width)
          = l.border.right ∧
        sampleBox.padding_rect.origin.y - sampleBox.border_rect.origin.y
          = l.border.top ∧
        sampleBox.border_rect.origin.y + sampleBox.border_rect.size.height
          - (sampleBox.padding_rect.origin.y + sampleBox.padding_rect.size.height)
          = l.border.bottom ∧
        sampleBox.border_rect.origin.x - sampleBox.margin_rect.origin.x
          = l.margin.left ∧
        sampleBox.margin_rect.origin.x + sampleBox.margin_rect.size.width
          - (sampleBox.border_rect.origin.x + sampleBox.border_rect.size.width)
          = l.margin.right ∧
        sampleBox.border_rect.origin.y - sampleBox.margin_rect.origin.y
          = l.margin.top ∧
        sampleBox.margin_rect.origin.y + sampleBox.margin_rect.size.height
          - (sampleBox.border_rect.origin.y + sampleBox.border_rect.size.height)
          = l.margin.bottom ∧
        0 ≤ sampleBox.content_rect.size.width ∧
        0 ≤ sampleBox.content_rect.size.height ∧
        0 ≤ sampleBox.padding_rect.size.width ∧
        0 ≤ sampleBox.padding_rect.size.height ∧
        0 ≤ sampleBox.border_rect.size.width ∧
        0 ≤ sampleBox.border_rect.size.height ∧
        0 ≤ sampleBox.margin_rect.size.width ∧
        0 ≤ sampleBox.margin_rect.size.height) :=
  box_model_invariant sampleTree (5, sampleBox)
    (by simp [sampleTree, sampleBox, extractTree, extractForest])

/-- C6 counterexample: the claim fails as stated.  In a layout tree whose box
map lists element 1 (border rectangle 0,0,100x100) before leaf element 2
(all rectangles 10,10,20x20, no children, hence no descendants), the point
(15,15) lies strictly inside leaf 2's content rectangle and inside no
descendant's border rectangle, yet hit testing returns element 1 — the first
entry in iteration order whose border rectangle contains the point — not the
leaf. -/
theorem element_at_point_leaf_cex :
    (LayoutTree.mk 1
      [(1, flatBox 1 (Rect.new 0 0 100 100) 100),
       (2, flatBox 2 (Rect.new 10 10 20 20) 30)]).element_at_point ⟨15, 15⟩
      = some 1 ∧
    Rect.strictlyContains (flatBox 2 (Rect.new 10 10 20 20) 30).content_rect
      ⟨15, 15⟩ ∧
    (1 : Nat) ≠ 2 := by
  refine ⟨?_, ?_, by decide⟩
  · simp only [LayoutTree.element_at_point, firstContaining]
    norm_num [Rect.contains_point, flatBox, Rect.new]
  · norm_num [Rect.strictlyContains, flatBox, Rect.new]

/-- C6 amended: hit testing scans the box map in iteration order and returns
the first node whose border rectangle contains the point.  Hence a point
strictly inside a leaf's content rectangle resolves to that leaf exactly when
no earlier entry's border rectangle contains the point (given the content
rectangle nests inside the border rectangle); and when no entry's border
rectangle contains the point, hit testing returns `none`. -/
theorem element_at_point_first_hit :
    (∀ (r0 i : Nat) (pre post : List (Nat × LayoutBox)) (b : LayoutBox)
      (p : Point),
      (∀ q ∈ pre, q.2.border_rect.contains_point p = false) →
      Rect.containsRect b.border_rect b.content_rect →
      Rect.strictlyContains b.content_rect p →
      (LayoutTree.mk r0 (pre ++ (i, b) :: post)).element_at_point p = some i) ∧
    (∀ (r0 : Nat) (boxes : List (Nat × LayoutBox)) (p : Point),
      (∀ q ∈ boxes, q.2.border_rect.contains_point p = false) →
      (LayoutTree.mk r0 boxes).element_at_point p = none) := by
  constructor
  · intro r0 i pre post b p hpre hnest hin
    have hb : b.border_rect.contains_point p = true := by
      obtain ⟨c1, c2, c3, c4⟩ := hnest
      obtain ⟨s1, s2, s3, s4⟩ := hin
      simp only [Rect.contains_point, Bool.and_eq_true, decide_eq_true_eq,
        ge_iff_le]
      exact ⟨⟨⟨by linarith, by linarith⟩, by linarith⟩, by linarith⟩
    exact firstContaining_eq_some pre post i b p hpre hb
  · intro r0 boxes p h
    exact firstContaining_eq_none boxes p h

/-- Witness for C6 amended, on a two-box map where the earlier box misses the
point and the later leaf box is hit, and on a map that misses entirely. -/
theorem element_at_point_first_hit_w :
    (LayoutTree.mk 1
      [(1, flatBox 1 (Rect.new 50 50 10 10) 60),
       (2, flatBox 2 (Rect.new 10 10 20 20) 30)]).element_at_point ⟨15, 15⟩
      = some 2 ∧
    (LayoutTree.mk 1
      [(1, flatBox 1 (Rect.new 50 50 10 10) 60)]).element_at_point ⟨0, 0⟩
      = none :=
  ⟨element_at_point_first_hit.1 1 2 [(1, flatBox 1 (Rect.new 50 50 10 10) 60)]
      [] (flatBox 2 (Rect.new 10 10 20 20) 30) ⟨15, 15⟩
      (by
        intro q hq
        simp only [List.mem_singleton] at hq
        subst hq
        norm_num [Rect.contains_point, flatBox, Rect.new])
      (by norm_num [Rect.containsRect, flatBox, Rect.new])
      (by norm_num [Rect.strictlyContains, flatBox, Rect.new]),
   element_at_point_first_hit.2 1 [(1, flatBox 1 (Rect.new 50 50 10 10) 60)]
      ⟨0, 0⟩
      (by
        intro q hq
        simp only [List.mem_singleton] at hq
        subst hq
        norm_num [Rect.contains_point, flatBox, Rect.new])⟩

/-- C2 counterexample: the claim fails as stated.  `compute_style` does not
reorder stylesheets by origin: supplied with an author sheet (width 5) first
and a baseline sheet (width 7) second, both matching tag `p`, the computed
width is the baseline sheet's 7, not the author sheet's 5. -/
theorem compute_style_ignores_origin_cex :
    (compute_style (Element.new "p" 1)
      [⟨[CSSRule.styleRule ⟨["p"], [⟨"width", "5", false⟩]⟩],
        StylesheetOrigin.author⟩,
       ⟨[CSSRule.styleRule ⟨["p"], [⟨"width", "7", false⟩]⟩],
        StylesheetOrigin.userAgent⟩]).width = some 7 ∧
    some (7 : ℚ) ≠ some (5 : ℚ) := by
  constructor
  · simp +decide [compute_style, applyRule, apply_declaration, selector_matches,
      Element.matches_selector, Element.get_attribute, Element.new, alistLookup,
      eqIgnoreAsciiCase, ComputedStyle.default, parse_length, parseNum,
      splitAtDot, splitAtFirst, digitsVal, findSub]
  · norm_num

/-- C2 amended: `compute_style` applies stylesheets in the order the caller
supplies them, ignoring the origin tag.  When they are supplied in increasing
origin precedence — baseline before author — and a baseline rule and an
author rule both match the node and set the same property, the computed value
is the author rule's value. -/
theorem compute_style_supplied_order (e : Element)
    (hstyle : e.get_attribute "style" = none)
    (sB sA P vB vA : String)
    (hmB : selector_matches sB e = true)
    (hmA : selector_matches sA e = true) :
    compute_style e
      [⟨[CSSRule.styleRule ⟨[sB], [⟨P, vB, false⟩]⟩], StylesheetOrigin.userAgent⟩,
       ⟨[CSSRule.styleRule ⟨[sA], [⟨P, vA, false⟩]⟩], StylesheetOrigin.author⟩]
      = apply_declaration ComputedStyle.default ⟨P, vA, false⟩ := by
  simp only [compute_style, List.foldl, applyRule, hmB, hmA, if_true, hstyle]
  exact apply_decl_override _ _ _ rfl

/-- Witness for C2 amended: baseline sheet then author sheet, both matching
tag `p` and setting `width`; the author value survives. -/
theorem compute_style_supplied_order_w :
    compute_style (Element.new "p" 1)
      [⟨[CSSRule.styleRule ⟨["p"], [⟨"width", "7", false⟩]⟩],
        StylesheetOrigin.userAgent⟩,
       ⟨[CSSRule.styleRule ⟨["p"], [⟨"width", "5", false⟩]⟩],
        StylesheetOrigin.author⟩]
      = apply_declaration ComputedStyle.default ⟨"width", "5", false⟩ :=
  compute_style_supplied_order (Element.new "p" 1) (by decide)
    "p" "p" "width" "7" "5" (by decide) (by decide)

/-- C4: with a single author stylesheet holding rules R1 then R2, both
matching the element (which carries no inline `style`) and both setting
property P, the computed style is exactly what applying R2's declaration to
the defaults gives — R2's later value wins; and within one matching rule two
declarations for the same property apply in declared order, so the later one
wins likewise. -/
theorem cascade_later_rule_wins (e : Element)
    (hstyle : e.get_attribute "style" = none)
    (s1 s2 P v1 v2 : String)
    (hm1 : selector_matches s1 e = true)
    (hm2 : selector_matches s2 e = true) :
    (compute_style e
      [⟨[CSSRule.styleRule ⟨[s1], [⟨P, v1, false⟩]⟩,
         CSSRule.styleRule ⟨[s2], [⟨P, v2, false⟩]⟩], StylesheetOrigin.author⟩]
      = apply_declaration ComputedStyle.default ⟨P, v2, false⟩) ∧
    (compute_style e
      [⟨[CSSRule.styleRule ⟨[s1], [⟨P, v1, false⟩, ⟨P, v2, false⟩]⟩],
        StylesheetOrigin.author⟩]
      = apply_declaration ComputedStyle.default ⟨P, v2, false⟩) := by
  constructor
  · simp only [compute_style, List.foldl, applyRule, hm1, hm2, if_true, hstyle]
    exact apply_decl_override _ _ _ rfl
  · simp only [compute_style, List.foldl, applyRule, hm1, if_true, hstyle]
    exact apply_decl_override _ _ _ rfl

/-- Witness for C4: two `p` rules setting `width` to 5 then 9, and one rule
setting it twice; 9 wins both times. -/
theorem cascade_later_rule_wins_w :
    (compute_style (Element.new "p" 1)
      [⟨[CSSRule.styleRule ⟨["p"], [⟨"width", "5", false⟩]⟩,
         CSSRule.styleRule ⟨["p"], [⟨"width", "9", false⟩]⟩],
        StylesheetOrigin.author⟩]
      = apply_declaration ComputedStyle.default ⟨"width", "9", false⟩) ∧
    (compute_style (Element.new "p" 1)
      [⟨[CSSRule.styleRule ⟨["p"], [⟨"width", "5", false⟩, ⟨"width", "9", false⟩]⟩],
        StylesheetOrigin.author⟩]
      = apply_declaration ComputedStyle.default ⟨"width", "9", false⟩) :=
  cascade_later_rule_wins (Element.new "p" 1) (by decide)
    "p" "p" "width" "5" "9" (by decide) (by decide)

/-- C5 counterexample: the claim fails as stated.  A color set to red by an
earlier declaration is not kept when a later declaration's value is
unparseable: `color: not-a-color` resets the computed color to the built-in
default black via `unwrap_or(Color::black())`. -/
theorem unparseable_color_cex :
    (apply_declaration (apply_declaration ComputedStyle.default
        ⟨"color", "red", false⟩) ⟨"color", "not-a-color", false⟩).color
      = Color.black ∧
    (apply_declaration ComputedStyle.default ⟨"color", "red", false⟩).color
      = Color.rgb 1 0 0 ∧
    Color.black ≠ Color.rgb 1 0 0 := by
  refine ⟨?_, ?_, by decide⟩ <;>
    simp +decide [apply_declaration, parse_color, cssColorParse, strToLower,
      ComputedStyle.default]

/-- C5 amended: applying a `color` declaration whose value cannot be parsed
resets the property to its built-in default black — discarding any color set
by an earlier matching rule — leaves every other field unchanged, and never
raises an error (the application is total). -/
theorem unparseable_color_resets_default (cs : ComputedStyle) (v : String)
    (h : parse_color v = none) :
    apply_declaration cs ⟨"color", v, false⟩ = { cs with color := Color.black } := by
  simp [apply_declaration, h]

/-- Witness for C5 amended at the spec's own input `not-a-color`, applied to
a style whose color an earlier rule set to red. -/
theorem unparseable_color_resets_default_w :
    apply_declaration
        (apply_declaration ComputedStyle.default ⟨"color", "red", false⟩)
        ⟨"color", "not-a-color", false⟩
      = { apply_declaration ComputedStyle.default ⟨"color", "red", false⟩ with
          color := Color.black } :=
  unparseable_color_resets_default
    (apply_declaration ComputedStyle.default ⟨"color", "red", false⟩)
    "not-a-color" (by decide)

/-- C3: the claim is right but the code does not satisfy it.  Parsing the
markup `<html><body></body></html>` produces a document in which the `body`
element (id 2) has `parent = none` even though it is a non-root node, and the
`html` element (id 1) — the recorded root — has an empty child list, so the
body's id appears in no parent's child list: `traverse_node` threads
`parent_id` but never records any edge. -/
theorem parsed_tree_has_no_edges :
    (alistLookup (from_rcdom (DomNode.document (DomForest.cons
        (DomNode.element "html" [] (DomForest.cons
          (DomNode.element "body" [] DomForest.nil) DomForest.nil))
        DomForest.nil))).elements 2).map Element.parent = some none ∧
    (alistLookup (from_rcdom (DomNode.document (DomForest.cons
        (DomNode.element "html" [] (DomForest.cons
          (DomNode.element "body" [] DomForest.nil) DomForest.nil))
        DomForest.nil))).elements 2).map Element.tag_name = some "body" ∧
    (alistLookup (from_rcdom (DomNode.document (DomForest.cons
        (DomNode.element "html" [] (DomForest.cons
          (DomNode.element "body" [] DomForest.nil) DomForest.nil))
        DomForest.nil))).elements 1).map Element.children = some [] ∧
    (from_rcdom (DomNode.document (DomForest.cons
        (DomNode.element "html" [] (DomForest.cons
          (DomNode.element "body" [] DomForest.nil) DomForest.nil))
        DomForest.nil))).root.id = 1 := by
  refine ⟨by decide, by decide, by decide, by decide⟩

/-- C7: the claim is right but the code does not satisfy it.  Parsing markup
with two `head` elements records the second one (id 3) in the `head`
shortcut: the `"head" => self.head = Some(...)` arm overwrites
unconditionally, so the first-seen element (id 2) is lost.  Both ids carry
tag `head`, and ids are assigned in traversal order (html 1, first head 2,
second head 3). -/
theorem head_shortcut_overwritten :
    ((from_rcdom (DomNode.document (DomForest.cons
        (DomNode.element "html" [] (DomForest.cons
          (DomNode.element "head" [] DomForest.nil)
          (DomForest.cons (DomNode.element "head" [] DomForest.nil)
            DomForest.nil)))
        DomForest.nil))).head).map Element.id = some 3 ∧
    (alistLookup (from_rcdom (DomNode.document (DomForest.cons
        (DomNode.element "html" [] (DomForest.cons
          (DomNode.element "head" [] DomForest.nil)
          (DomForest.cons (DomNode.element "head" [] DomForest.nil)
            DomForest.nil)))
        DomForest.nil))).elements 2).map Element.tag_name = some "head" ∧
    (alistLookup (from_rcdom (DomNode.document (DomForest.cons
        (DomNode.element "html" [] (DomForest.cons
          (DomNode.element "head" [] DomForest.nil)
          (DomForest.cons (DomNode.element "head" [] DomForest.nil)
            DomForest.nil)))
        DomForest.nil))).elements 3).map Element.tag_name = some "head" ∧
    (3 : Nat) ≠ 2 := by
  refine ⟨by decide, by decide, by decide, by decide⟩

end Titan
